import Mathlib

/-!
Verification development for the student/todo/class management application.

The repository ships a Next.js frontend plus REST route handlers for
students and classes; the conversational task-management backend (Task
Store, Tool Registry, Intent Resolver, Conversation Dispatcher) exists in
the repository only as contracts (`specs/main/contracts/mcp-tools.md`),
data-model documents and frontend clients, so that part is modelled from
the specification.  The student and class route handlers
(`app/api/students/route.ts`, classes routes) are embedded directly from
their TypeScript source.
-/

namespace Todo

/-- Task status enumeration {pending, completed}; default pending. -/
inductive Status where
  | pending
  | completed
deriving DecidableEq, Repr, BEq

/-- Modelled from the spec: the Task record of §3 (the backend task table is
not in the repository source).  Timestamps are abstract Nat ticks. -/
structure Task where
  id : Nat
  title : String
  description : Option String
  status : Status
  owner_id : Nat
  created_at : Nat
  updated_at : Nat
deriving DecidableEq, Repr

/-- Error taxonomy of §7: ValidationError, NotFoundError, CollaboratorError,
StoreError. -/
inductive ToolError where
  | validation
  | notFound
  | collaborator
  | store
deriving DecidableEq, Repr

/-- Modelled from the spec: the Task Store (persistent table of task records,
not in the repository source).  `clock` is a monotone tick supplying
`created_at`/`updated_at`; `nextId` supplies fresh task ids. -/
structure TaskStore where
  tasks : List Task
  nextId : Nat
  clock : Nat
deriving Repr

/-- Predicate selecting the caller's row with the given id: every read and
mutation is scoped by `owner_id` (§5 shared-resource policy). -/
def ownedMatch (owner id : Nat) (t : Task) : Bool :=
  t.id == id && t.owner_id == owner

/-- Title constraint of the `add_task` contract: required, 1–255 chars. -/
def titleOk (title : String) : Bool :=
  decide (0 < title.length) && decide (title.length ≤ 255)

/-- Description constraint of the `add_task` contract: optional, ≤1000 chars. -/
def descrOk (d : Option String) : Bool :=
  match d with
  | some s => decide (s.length ≤ 1000)
  | none => true

/-- Modelled from the spec: the `add_task` tool (§4.1, mcp-tools.md); the MCP
tool server is not in the repository source.  Fails with ValidationError if
the title is empty/too long or the description too long; otherwise inserts a
pending task owned by the caller and returns the new id. -/
def addTask (ts : TaskStore) (owner : Nat) (title : String)
    (descr : Option String) : Except ToolError Nat × TaskStore :=
  if titleOk title && descrOk descr then
    let t : Task :=
      ⟨ts.nextId, title, descr, Status.pending, owner, ts.clock, ts.clock⟩
    (Except.ok ts.nextId, ⟨ts.tasks ++ [t], ts.nextId + 1, ts.clock + 1⟩)
  else
    (Except.error ToolError.validation, ts)

/-- Status filter of `list_tasks`: no filter accepts every task. -/
def statusMatches (filt : Option Status) (t : Task) : Bool :=
  match filt with
  | some st => t.status == st
  | none => true

/-- Modelled from the spec: the `list_tasks` tool (§4.1); the MCP tool server
is not in the repository source.  Returns the caller's tasks in store order
(creation order) plus their count; an empty list is a valid success and no
error condition exists. -/
def listTasks (ts : TaskStore) (owner : Nat) (filt : Option Status) :
    Except ToolError (List Task × Nat) × TaskStore :=
  let l := ts.tasks.filter (fun t => t.owner_id == owner && statusMatches filt t)
  (Except.ok (l, l.length), ts)

/-- Row effect of `complete_task`: the caller's matching row becomes
`completed` with a refreshed `updated_at`; other rows are untouched. -/
def completeRow (owner id clk : Nat) (u : Task) : Task :=
  if ownedMatch owner id u then
    { u with status := Status.completed, updated_at := clk }
  else u

/-- Modelled from the spec: the `complete_task` tool (§4.1); the MCP tool
server is not in the repository source.  Scoped to the caller's `owner_id`;
NotFoundError if the id is unknown or not owned by the caller; otherwise
marks the task completed and refreshes `updated_at`. -/
def completeTask (ts : TaskStore) (owner id : Nat) :
    Except ToolError String × TaskStore :=
  match ts.tasks.find? (ownedMatch owner id) with
  | none => (Except.error ToolError.notFound, ts)
  | some t =>
    (Except.ok ("Task " ++ t.title ++ " marked as completed"),
     ⟨ts.tasks.map (completeRow owner id ts.clock), ts.nextId, ts.clock + 1⟩)

/-- Modelled from the spec: the `delete_task` tool (§4.1); the MCP tool
server is not in the repository source.  Scoped to the caller's `owner_id`;
NotFoundError if the id is unknown or not owned by the caller; removal is
permanent. -/
def deleteTask (ts : TaskStore) (owner id : Nat) :
    Except ToolError String × TaskStore :=
  match ts.tasks.find? (ownedMatch owner id) with
  | none => (Except.error ToolError.notFound, ts)
  | some t =>
    (Except.ok ("Task " ++ t.title ++ " deleted successfully"),
     ⟨ts.tasks.filter (fun u => !(ownedMatch owner id u)),
      ts.nextId, ts.clock + 1⟩)

/-- Partial update supplied to `update_task`: at least one of
{title, description, status}. -/
structure TaskPatch where
  title : Option String
  description : Option String
  status : Option Status
deriving Repr

/-- Validation of an `update_task` patch (§4.1): at least one updatable field
supplied and every supplied value meets its field constraint. -/
def patchValid (p : TaskPatch) : Bool :=
  (p.title.isSome || p.description.isSome || p.status.isSome)
  && (match p.title with | some s => titleOk s | none => true)
  && (match p.description with | some d => decide (d.length ≤ 1000) | none => true)

/-- Apply a patch to a task, refreshing `updated_at` to the current tick. -/
def applyPatch (now : Nat) (p : TaskPatch) (t : Task) : Task :=
  { t with
    title := p.title.getD t.title,
    description := (match p.description with | some d => some d | none => t.description),
    status := p.status.getD t.status,
    updated_at := now }

/-- Row effect of `update_task`: the caller's matching row receives the
patch with a refreshed `updated_at`; other rows are untouched. -/
def updateRow (owner id clk : Nat) (p : TaskPatch) (u : Task) : Task :=
  if ownedMatch owner id u then applyPatch clk p u else u

/-- Modelled from the spec: the `update_task` tool (§4.1); the MCP tool
server is not in the repository source.  ValidationError if no updatable
field is supplied or a value fails its constraint; NotFoundError if the id
is unknown or not owned by the caller; otherwise applies the patch and
refreshes `updated_at`. -/
def updateTask (ts : TaskStore) (owner id : Nat) (p : TaskPatch) :
    Except ToolError String × TaskStore :=
  if patchValid p then
    match ts.tasks.find? (ownedMatch owner id) with
    | none => (Except.error ToolError.notFound, ts)
    | some _ =>
      (Except.ok "Task updated successfully",
       ⟨ts.tasks.map (updateRow owner id ts.clock p), ts.nextId, ts.clock + 1⟩)
  else
    (Except.error ToolError.validation, ts)

/-- Store well-formedness: every stored timestamp precedes the clock, ids
precede `nextId`, and the row list is in creation order (oldest first). -/
def WF (ts : TaskStore) : Prop :=
  (∀ t ∈ ts.tasks, t.id < ts.nextId ∧ t.created_at < ts.clock ∧ t.updated_at < ts.clock)
  ∧ ts.tasks.Pairwise (fun a b => a.created_at ≤ b.created_at)

instance (ts : TaskStore) : Decidable (WF ts) := by
  unfold WF; infer_instance

/-- Message role enumeration {user, assistant}. -/
inductive Role where
  | user
  | assistant
deriving DecidableEq, Repr

/-- Modelled from the spec: the Message record of §3 (the conversation
backend is not in the repository source); immutable once created. -/
structure Message where
  role : Role
  content : String
deriving DecidableEq, Repr

/-- Modelled from the spec: the Conversation record of §3 (the conversation
backend is not in the repository source); owns an ordered sequence of
messages, insertion order is conversation order. -/
structure Conversation where
  id : Nat
  owner_id : Nat
  messages : List Message
deriving Repr

/-- Modelled from the spec: the Conversation Store (§6 outbound contract);
the conversation backend is not in the repository source. -/
structure ConvStore where
  convs : List Conversation
  nextId : Nat
deriving Repr

/-- Append a message to one conversation of the store: the existing log is
kept intact and the new message goes at the end (append-only log). -/
def appendMessage (cs : ConvStore) (cid : Nat) (r : Role) (content : String) :
    ConvStore :=
  ⟨cs.convs.map (fun c =>
      if c.id == cid then { c with messages := c.messages ++ [⟨r, content⟩] } else c),
   cs.nextId⟩

/-- Modelled from the spec: `recent_messages(conversation_id, limit)` (§6);
the conversation backend is not in the repository source.  Returns the last
`limit` messages of the log, oldest of the window first. -/
def recentMessages (l : List Message) (limit : Nat) : List Message :=
  l.drop (l.length - limit)

/-- The message log of one conversation of the store (empty when the id is
unknown). -/
def convMessages (cs : ConvStore) (cid : Nat) : List Message :=
  match cs.convs.find? (fun c => c.id == cid) with
  | some c => c.messages
  | none => []

/-- Modelled from the spec: `get_or_create` of the Conversation Store (§6,
§4.3 step 1); the conversation backend is not in the repository source.
A missing or foreign conversation id degrades to lazily creating a fresh
conversation for the caller (§7 absorbs the NotFoundError). -/
def getOrCreateConv (cs : ConvStore) (owner : Nat) (cid? : Option Nat) :
    Nat × ConvStore :=
  match cid? with
  | some cid =>
    if cs.convs.any (fun c => c.id == cid && c.owner_id == owner) then
      (cid, cs)
    else
      (cs.nextId, ⟨cs.convs ++ [⟨cs.nextId, owner, []⟩], cs.nextId + 1⟩)
  | none =>
    (cs.nextId, ⟨cs.convs ++ [⟨cs.nextId, owner, []⟩], cs.nextId + 1⟩)

/-- Lower-cased character list of a string, for case-insensitive matching. -/
def lowerChars (s : String) : List Char := s.data.map Char.toLower

/-- Split a character list into space-separated words (accumulator holds the
current word reversed). -/
def splitWordsAux : List Char → List Char → List String
  | [], acc => [String.mk acc.reverse]
  | c :: cs, acc =>
    if c = ' ' then String.mk acc.reverse :: splitWordsAux cs []
    else splitWordsAux cs (c :: acc)

/-- The space-separated words of an utterance. -/
def splitWords (s : String) : List String := splitWordsAux s.data []

/-- Rejoin words with single spaces. -/
def joinWords : List String → String
  | [] => ""
  | [w] => w
  | w :: ws => w ++ " " ++ joinWords ws

/-- `leadsList pat l`: `pat` is an initial segment of `l`. -/
def leadsList : List Char → List Char → Bool
  | [], _ => true
  | _ :: _, [] => false
  | a :: as, b :: bs => a == b && leadsList as bs

/-- `containsSub pat l`: `pat` occurs contiguously inside `l`. -/
def containsSub (pat : List Char) : List Char → Bool
  | [] => leadsList pat []
  | b :: bs => leadsList pat (b :: bs) || containsSub pat bs

/-- Case-insensitive substring test: the reference occurs inside the title
(§4.2 step 4). -/
def matchesTitle (title ref : String) : Bool :=
  containsSub (lowerChars ref) (lowerChars title)

/-- The five tool invocations of the registry (§4.1). -/
inductive ToolCall where
  | add (title : String) (descr : Option String)
  | list (filt : Option Status)
  | complete (id : Nat)
  | del (id : Nat)
  | upd (id : Nat) (p : TaskPatch)
deriving Repr

/-- Resolver output (§4.2): a single tool invocation, or a clarification
request that is returned verbatim as the response. -/
inductive Resolution where
  | tool (c : ToolCall)
  | clarify (text : String)
deriving Repr

/-- Deterministic intent keywords of the fixed lexicon (§4.2 step 1). -/
inductive IntentKind where
  | addI
  | listI
  | completeI
  | deleteI
  | updateI
deriving DecidableEq, Repr

/-- Modelled from the spec: the fixed lexicon of §4.2 step 1 (the Intent
Resolver is not in the repository source). -/
def lexiconIntent (w : String) : Option IntentKind :=
  if w == "add" || w == "create" || w == "remember" then some IntentKind.addI
  else if w == "show" || w == "list" || w == "see" then some IntentKind.listI
  else if w == "done" || w == "finished" || w == "complete" then some IntentKind.completeI
  else if w == "delete" || w == "remove" || w == "cancel" then some IntentKind.deleteI
  else if w == "change" || w == "update" || w == "rename" then some IntentKind.updateI
  else none

/-- Filler words dropped when extracting the free-text task reference from
an utterance (e.g. "mark buying milk as done" yields "buying milk"). -/
def fillerWord (w : String) : Bool :=
  w == "mark" || w == "as" || w == "a" || w == "an" || w == "the" || w == "to"
  || w == "task" || w == "my" || w == "me" || w == "i" || w == "please"

/-- Modelled from the spec: extraction of the free-text task reference from
an utterance (§4.2 step 4 example; the Intent Resolver is not in the
repository source): the utterance's words minus lexicon keywords and
fillers, rejoined with spaces. -/
def extractRef (text : String) : String :=
  joinWords
    ((splitWords text).filter
      (fun w => (lexiconIntent w).isNone && !(fillerWord w)))

/-- Clarification text used when a task reference is ambiguous or missing
(§4.2 steps 3–4). -/
def clarifyTarget : String :=
  "Which task did you mean? Please tell me its exact name."

/-- Modelled from the spec: §4.2 step 4 (the Intent Resolver is not in the
repository source).  Resolve a free-text task reference against the
caller's current task titles by case-insensitive substring match; a unique
match yields the tool call, zero or more than one match is ambiguous and
triggers the clarification path rather than guessing. -/
def resolveTarget (mk : Nat → ToolCall) (ref : String) (tasks : List Task) :
    Resolution :=
  match tasks.filter (fun t => matchesTitle t.title ref) with
  | [t] => Resolution.tool (mk t.id)
  | _ => Resolution.clarify clarifyTarget

/-- Modelled from the spec: building the tool call for a keyword-matched
intent (§4.2 steps 1, 3, 4; the Intent Resolver is not in the repository
source).  Target-taking intents go through reference resolution; update
needs new field values which free text does not carry in this core, so it
asks for clarification. -/
def buildCall (i : IntentKind) (text : String) (tasks : List Task) : Resolution :=
  match i with
  | IntentKind.addI =>
    let ref := extractRef text
    if ref == "" then Resolution.clarify "What should the task say?"
    else Resolution.tool (ToolCall.add ref none)
  | IntentKind.listI => Resolution.tool (ToolCall.list none)
  | IntentKind.completeI => resolveTarget ToolCall.complete (extractRef text) tasks
  | IntentKind.deleteI => resolveTarget ToolCall.del (extractRef text) tasks
  | IntentKind.updateI => Resolution.clarify "What would you like to change?"

/-- Modelled from the spec: the deterministic keyword path of the Intent
Resolver (§4.2 steps 1–2; not in the repository source).  A single intent
signal resolves deterministically; zero or conflicting signals delegate to
the external collaborator. -/
def keywordResolve (text : String) (tasks : List Task) : Option Resolution :=
  match ((splitWords text).filterMap lexiconIntent).dedup with
  | [i] => some (buildCall i text tasks)
  | _ => none

/-- Outcome of the external language-understanding collaborator (§6): a
resolution, or a CollaboratorError (timeout / malformed response). -/
inductive CollabOut where
  | resolved (r : Resolution)
  | failed
deriving Repr

/-- Run one tool call against the Task Store (the Tool Registry dispatch). -/
def runTool (ts : TaskStore) (owner : Nat) : ToolCall →
    Except ToolError String × TaskStore
  | ToolCall.add title d =>
    let (r, ts') := addTask ts owner title d
    (r.map (fun _ => "Added " ++ title ++ " to your list."), ts')
  | ToolCall.list filt =>
    let (r, ts') := listTasks ts owner filt
    (r.map (fun p => "You have " ++ toString p.2 ++ " task(s)."), ts')
  | ToolCall.complete id => completeTask ts owner id
  | ToolCall.del id => deleteTask ts owner id
  | ToolCall.upd id p => updateTask ts owner id p

/-- Apologetic conversational rendering of an absorbed tool failure (§4.3
step 4, §7): names the failure kind without leaking internals. -/
def apology (e : ToolError) : String :=
  match e with
  | ToolError.validation => "Sorry, that request was not valid - could you rephrase it?"
  | ToolError.notFound => "I could not find that task - could you tell me its name again?"
  | ToolError.collaborator => "Sorry, I did not understand that."
  | ToolError.store => "Sorry, something went wrong on my side."

/-- Result of a dispatched chat request: the response text, the conversation
id, and the updated stores. -/
structure DispatchOut where
  response : String
  conversation_id : Nat
  convStore : ConvStore
  taskStore : TaskStore

/-- Modelled from the spec: the Conversation Dispatcher (§4.3, §7; the chat
backend is not in the repository source).  `storeUp` models database
availability: when the store is down every step fails with StoreError, the
only error class that crosses the boundary as a hard failure.  The external
collaborator's answer is the `collab` input; its failure (CollaboratorError)
and every ValidationError/NotFoundError from tools are absorbed into a
conversational response. -/
def dispatch (storeUp : Bool) (owner : Nat) (cid? : Option Nat)
    (text : String) (collab : CollabOut) (cs : ConvStore) (ts : TaskStore) :
    Except ToolError DispatchOut :=
  if storeUp then
    let cid := (getOrCreateConv cs owner cid?).1
    let cs2 := appendMessage (getOrCreateConv cs owner cid?).2 cid Role.user text
    let res : Resolution :=
      match keywordResolve text (ts.tasks.filter (fun t => t.owner_id == owner)) with
      | some r => r
      | none =>
        match collab with
        | CollabOut.resolved r => r
        | CollabOut.failed => Resolution.clarify (apology ToolError.collaborator)
    let out : String × TaskStore :=
      match res with
      | Resolution.clarify msg => (msg, ts)
      | Resolution.tool c =>
        match runTool ts owner c with
        | (Except.ok msg, ts2) => ("OK: " ++ msg, ts2)
        | (Except.error e, ts2) => (apology e, ts2)
    Except.ok ⟨out.1, cid, appendMessage cs2 cid Role.assistant out.1, out.2⟩
  else
    Except.error ToolError.store

end Todo

namespace StudentsRoute

/-- A row of the `student` table: the name lives in the `nameplz` column
(`app/api/students/route.ts`). -/
structure StudentRow where
  id : Nat
  nameplz : String
  email : String
  created_at : Nat
deriving DecidableEq, Repr

/-- The JSON student object produced by both handlers: `nameplz as name`
aliases the column back to `name`. -/
structure StudentOut where
  id : Nat
  name : String
  email : String
  created_at : Nat
deriving DecidableEq, Repr

/-- The student table with an id sequence and a monotone insertion clock
standing for the database's `created_at` timestamps. -/
structure StudentDb where
  rows : List StudentRow
  nextId : Nat
  clock : Nat
deriving Repr

/-- `RETURNING id, nameplz as name, email, created_at`. -/
def rowToOut (r : StudentRow) : StudentOut :=
  ⟨r.id, r.nameplz, r.email, r.created_at⟩

/-- Outcomes of `POST /api/students`: 201 with the created student, 400 on
missing name/email, 409 on duplicate email. -/
inductive PostResult where
  | created (student : StudentOut)
  | badRequest (msg : String)
  | conflict (msg : String)
deriving DecidableEq, Repr

/-- `POST` of `app/api/students/route.ts`: requires name and email (JS
truthiness - the empty string counts as missing), inserts the request's
`name` into the `nameplz` column, and returns the new row with `nameplz`
aliased back to `name`.  A duplicate email is reported as a 409 conflict
(unique-violation branch of the catch). -/
def postStudent (db : StudentDb) (name email : String) :
    PostResult × StudentDb :=
  if name == "" || email == "" then
    (PostResult.badRequest "Name and email are required", db)
  else if db.rows.any (fun r => r.email == email) then
    (PostResult.conflict "Email already exists", db)
  else
    let row : StudentRow := ⟨db.nextId, name, email, db.clock⟩
    (PostResult.created (rowToOut row),
     ⟨db.rows ++ [row], db.nextId + 1, db.clock + 1⟩)

/-- Insert a row into a list kept in descending `created_at` order. -/
def insertDesc (r : StudentRow) : List StudentRow → List StudentRow
  | [] => [r]
  | x :: xs =>
    if r.created_at ≤ x.created_at then x :: insertDesc r xs
    else r :: x :: xs

/-- `ORDER BY created_at DESC` over the student table. -/
def sortDesc : List StudentRow → List StudentRow
  | [] => []
  | x :: xs => insertDesc x (sortDesc xs)

/-- `GET` of `app/api/students/route.ts`: `SELECT id, nameplz as name,
email, created_at FROM student ORDER BY created_at DESC`, returned together
with the count. -/
def getStudents (db : StudentDb) : List StudentOut × Nat :=
  let l := (sortDesc db.rows).map rowToOut
  (l, l.length)

end StudentsRoute

namespace ClassesRoute

/-- A row of the `classes` table, with the handlers' response aliases
(`class_name as "className"`, `max_students as "maxStudents"`). -/
structure ClassRow where
  id : Nat
  className : String
  description : Option String
  instructor : String
  maxStudents : Option Nat
  created_at : Nat
deriving DecidableEq, Repr

/-- The JSON body of a `GET /classes` response: `success`, the class list
and its count. -/
structure ClassesResponse where
  success : Bool
  classes : List ClassRow
  count : Nat
  status : Nat
deriving DecidableEq, Repr

/-- `GET` of the classes route (src/unnamed/part_007): on a successful query
it returns the rows with their count; its catch block answers ANY error with
`success: true` and an empty list - it never reports failure.  The database
interaction is abstracted as an `Except`: `Except.error` is any thrown
database error (store unavailable included), `Except.ok` the queried rows. -/
def classesGET (db : Except String (List ClassRow)) : ClassesResponse :=
  match db with
  | Except.ok rows => ⟨true, rows, rows.length, 200⟩
  | Except.error _ => ⟨true, [], 0, 200⟩

end ClassesRoute

namespace Todo

theorem ownedMatch_iff (owner id : Nat) (t : Task) :
    ownedMatch owner id t = true ↔ t.id = id ∧ t.owner_id = owner := by
  simp [ownedMatch]

theorem titleOk_iff (s : String) :
    titleOk s = true ↔ 0 < s.length ∧ s.length ≤ 255 := by
  simp [titleOk]

end Todo

namespace ClassesRoute

/-- C9: the class-listing endpoint never reports failure: every database
error makes `GET /classes` answer success `true` with an empty class list
and count `0`, exactly the answer a genuinely empty store produces. -/
theorem classes_get_never_fails (e : String) :
    classesGET (Except.error e) = ⟨true, [], 0, 200⟩
    ∧ classesGET (Except.error e) = classesGET (Except.ok []) := by
  exact ⟨rfl, rfl⟩

/-- Witness for C9 at a concrete error: a refused connection still yields
success `true`, empty list, count 0. -/
theorem classes_get_never_fails_witness :
    classesGET (Except.error "connection refused") = ⟨true, [], 0, 200⟩
    ∧ classesGET (Except.error "connection refused") =
      classesGET (Except.ok []) :=
  classes_get_never_fails "connection refused"

end ClassesRoute

namespace StudentsRoute

theorem mem_insertDesc (r a : StudentRow) (l : List StudentRow) :
    a ∈ insertDesc r l ↔ a = r ∨ a ∈ l := by
  induction l with
  | nil => simp [insertDesc]
  | cons x xs ih =>
    by_cases h : r.created_at ≤ x.created_at
    · simp only [insertDesc, if_pos h, List.mem_cons, ih]
      tauto
    · simp [insertDesc, if_neg h]

theorem mem_sortDesc (a : StudentRow) (l : List StudentRow) :
    a ∈ sortDesc l ↔ a ∈ l := by
  induction l with
  | nil => simp [sortDesc]
  | cons x xs ih => simp [sortDesc, mem_insertDesc, ih]

/-- C10: student create/list round-trip through the renamed column: POST
stores the submitted `name` into the `nameplz` column, answers with it
aliased back under `name`, and a subsequent GET lists the created student
with the same `name`. -/
theorem student_name_round_trip (db : StudentDb) (name email : String)
    (hname : name ≠ "") (hemail : email ≠ "")
    (hfresh : ∀ r ∈ db.rows, r.email ≠ email) :
    ∃ db' : StudentDb,
      postStudent db name email =
        (PostResult.created ⟨db.nextId, name, email, db.clock⟩, db')
      ∧ (⟨db.nextId, name, email, db.clock⟩ : StudentRow) ∈ db'.rows
      ∧ ∃ o ∈ (getStudents db').1, o.id = db.nextId ∧ o.name = name := by
  have hany : db.rows.any (fun r => r.email == email) = false := by
    rw [List.any_eq_false]
    intro r hr
    simpa using hfresh r hr
  refine ⟨⟨db.rows ++ [⟨db.nextId, name, email, db.clock⟩], db.nextId + 1,
      db.clock + 1⟩, ?_, ?_, ?_⟩
  · simp [postStudent, hname, hemail, hany, rowToOut]
  · simp
  · refine ⟨⟨db.nextId, name, email, db.clock⟩, ?_, rfl, rfl⟩
    simp only [getStudents, List.mem_map]
    exact ⟨⟨db.nextId, name, email, db.clock⟩, by simp [mem_sortDesc], rfl⟩

/-- Witness for C10 at a concrete input: creating "Ada" succeeds and reads
back under `name`. -/
theorem student_name_round_trip_witness :
    ∃ db' : StudentDb,
      postStudent ⟨[], 0, 0⟩ "Ada" "ada@x.io" =
        (PostResult.created ⟨0, "Ada", "ada@x.io", 0⟩, db')
      ∧ (⟨0, "Ada", "ada@x.io", 0⟩ : StudentRow) ∈ db'.rows
      ∧ ∃ o ∈ (getStudents db').1, o.id = 0 ∧ o.name = "Ada" :=
  student_name_round_trip ⟨[], 0, 0⟩ "Ada" "ada@x.io" (by decide) (by decide)
    (by intro r hr; simp at hr)

end StudentsRoute

namespace Todo

/-- C4: `add_task` fails with ValidationError exactly when the title is
empty or longer than 255 characters or the optional description exceeds
1000 characters; any input with a 1–255 character title (and admissible
description) succeeds and returns the new task's id. -/
theorem add_task_validation (ts : TaskStore) (owner : Nat) (title : String)
    (descr : Option String) :
    ((addTask ts owner title descr).1 = Except.error ToolError.validation ↔
      title.length = 0 ∨ 255 < title.length ∨
        ∃ s, descr = some s ∧ 1000 < s.length)
    ∧ ((0 < title.length ∧ title.length ≤ 255 ∧
          ∀ s, descr = some s → s.length ≤ 1000) →
        (addTask ts owner title descr).1 = Except.ok ts.nextId) := by
  have key : (titleOk title && descrOk descr) = true ↔
      (0 < title.length ∧ title.length ≤ 255 ∧
        ∀ s, descr = some s → s.length ≤ 1000) := by
    rw [Bool.and_eq_true, titleOk_iff]
    cases descr with
    | none => simp [descrOk]
    | some s => simp [descrOk, and_assoc]
  have step : (addTask ts owner title descr).1 = Except.error ToolError.validation
      ↔ ¬((titleOk title && descrOk descr) = true) := by
    by_cases hc : (titleOk title && descrOk descr) = true <;>
      simp [addTask, hc]
  constructor
  · rw [step, key]
    cases descr with
    | none => simp; omega
    | some s => simp; omega
  · rintro ⟨h1, h2, h3⟩
    have hc := key.mpr ⟨h1, h2, h3⟩
    simp [addTask, hc]

/-- C1: all task mutations are scoped to the caller's `owner_id`: for a
task of owner `A`, any `complete_task`/`delete_task`/`update_task` call
made by a distinct owner `B` with that task's id fails with NotFoundError
and leaves the store (so the task) unchanged. -/
theorem ownership_isolation (ts : TaskStore) (A B : Nat) (t : Task)
    (p : TaskPatch) (_ht : t ∈ ts.tasks) (_hA : t.owner_id = A) (hB : B ≠ A)
    (hid : ∀ u ∈ ts.tasks, u.id = t.id → u.owner_id = A)
    (hp : patchValid p = true) :
    completeTask ts B t.id = (Except.error ToolError.notFound, ts)
    ∧ deleteTask ts B t.id = (Except.error ToolError.notFound, ts)
    ∧ updateTask ts B t.id p = (Except.error ToolError.notFound, ts) := by
  have hnone : ts.tasks.find? (ownedMatch B t.id) = none := by
    rw [List.find?_eq_none]
    intro u hu hmatch
    rcases (ownedMatch_iff B t.id u).mp hmatch with ⟨h1, h2⟩
    exact hB (h2 ▸ hid u hu h1)
  exact ⟨by simp [completeTask, hnone], by simp [deleteTask, hnone],
    by simp [updateTask, hp, hnone]⟩

/-- Witness for C1 at a concrete input: owner 2 cannot touch owner 1's
task 0. -/
theorem ownership_isolation_witness :
    completeTask ⟨[⟨0, "buy milk", none, Status.pending, 1, 0, 0⟩], 1, 1⟩ 2 0 =
      (Except.error ToolError.notFound,
       ⟨[⟨0, "buy milk", none, Status.pending, 1, 0, 0⟩], 1, 1⟩)
    ∧ deleteTask ⟨[⟨0, "buy milk", none, Status.pending, 1, 0, 0⟩], 1, 1⟩ 2 0 =
      (Except.error ToolError.notFound,
       ⟨[⟨0, "buy milk", none, Status.pending, 1, 0, 0⟩], 1, 1⟩)
    ∧ updateTask ⟨[⟨0, "buy milk", none, Status.pending, 1, 0, 0⟩], 1, 1⟩ 2 0
        ⟨some "eggs", none, none⟩ =
      (Except.error ToolError.notFound,
       ⟨[⟨0, "buy milk", none, Status.pending, 1, 0, 0⟩], 1, 1⟩) :=
  ownership_isolation ⟨[⟨0, "buy milk", none, Status.pending, 1, 0, 0⟩], 1, 1⟩
    1 2 ⟨0, "buy milk", none, Status.pending, 1, 0, 0⟩ ⟨some "eggs", none, none⟩
    (by decide) (by decide) (by decide)
    (by intro u hu h; simp at hu; subst hu; rfl) (by decide)

theorem mem_complete_map {owner id clk : Nat} {l : List Task} {u : Task}
    (hu : u ∈ l.map (completeRow owner id clk))
    (hid : u.id = id) (how : u.owner_id = owner) :
    u.status = Status.completed := by
  rcases List.mem_map.mp hu with ⟨v, hv, hfv⟩
  unfold completeRow at hfv
  by_cases hm : ownedMatch owner id v = true
  · rw [if_pos hm] at hfv
    rw [← hfv]
  · rw [if_neg hm] at hfv
    subst hfv
    exact absurd ((ownedMatch_iff owner id v).mpr ⟨hid, how⟩) hm

/-- C6: `complete_task` is idempotent: for a task owned by the caller,
calling it twice with the same id succeeds both times, and every store row
with that id and owner has status `completed` after either call. -/
theorem complete_task_idempotent (ts : TaskStore) (owner : Nat) (t : Task)
    (ht : t ∈ ts.tasks) (how : t.owner_id = owner) :
    (∃ m, (completeTask ts owner t.id).1 = Except.ok m)
    ∧ (∃ m, (completeTask (completeTask ts owner t.id).2 owner t.id).1 =
        Except.ok m)
    ∧ (∀ u ∈ (completeTask ts owner t.id).2.tasks,
        u.id = t.id → u.owner_id = owner → u.status = Status.completed)
    ∧ (∀ u ∈ (completeTask (completeTask ts owner t.id).2 owner t.id).2.tasks,
        u.id = t.id → u.owner_id = owner → u.status = Status.completed) := by
  have hmt : ownedMatch owner t.id t = true :=
    (ownedMatch_iff owner t.id t).mpr ⟨rfl, how⟩
  have hsome1 : (ts.tasks.find? (ownedMatch owner t.id)).isSome := by
    rw [List.find?_isSome]
    exact ⟨t, ht, hmt⟩
  rcases Option.isSome_iff_exists.mp hsome1 with ⟨v, hv⟩
  have e1 : completeTask ts owner t.id =
      (Except.ok ("Task " ++ v.title ++ " marked as completed"),
       ⟨ts.tasks.map (completeRow owner t.id ts.clock), ts.nextId, ts.clock + 1⟩) := by
    unfold completeTask
    rw [hv]
  have hS : (completeTask ts owner t.id).2 =
      (⟨ts.tasks.map (completeRow owner t.id ts.clock), ts.nextId, ts.clock + 1⟩ :
        TaskStore) := by
    rw [e1]
  have ht' : completeRow owner t.id ts.clock t
      ∈ ts.tasks.map (completeRow owner t.id ts.clock) :=
    List.mem_map_of_mem _ ht
  have hmt' : ownedMatch owner t.id (completeRow owner t.id ts.clock t) = true := by
    unfold completeRow
    rw [if_pos hmt]
    exact (ownedMatch_iff owner t.id _).mpr ⟨rfl, how⟩
  have hsome2 : ((ts.tasks.map (completeRow owner t.id ts.clock)).find?
      (ownedMatch owner t.id)).isSome := by
    rw [List.find?_isSome]
    exact ⟨_, ht', hmt'⟩
  rcases Option.isSome_iff_exists.mp hsome2 with ⟨w, hw⟩
  have e2 : completeTask
      (⟨ts.tasks.map (completeRow owner t.id ts.clock), ts.nextId, ts.clock + 1⟩ :
        TaskStore) owner t.id =
      (Except.ok ("Task " ++ w.title ++ " marked as completed"),
       ⟨(ts.tasks.map (completeRow owner t.id ts.clock)).map
          (completeRow owner t.id (ts.clock + 1)), ts.nextId, ts.clock + 2⟩) := by
    unfold completeTask
    rw [show (⟨ts.tasks.map (completeRow owner t.id ts.clock), ts.nextId,
        ts.clock + 1⟩ : TaskStore).tasks =
        ts.tasks.map (completeRow owner t.id ts.clock) from rfl, hw]
  refine ⟨⟨_, by rw [e1]⟩, ⟨_, by rw [hS, e2]⟩, ?_, ?_⟩
  · intro u hu hid howu
    rw [e1] at hu
    exact mem_complete_map hu hid howu
  · intro u hu hid howu
    rw [hS, e2] at hu
    exact mem_complete_map hu hid howu

/-- Witness for C6 at a concrete input: completing task 0 twice succeeds
both times and leaves it completed. -/
theorem complete_task_idempotent_witness :
    (∃ m, (completeTask ⟨[⟨0, "buy milk", none, Status.pending, 1, 0, 0⟩], 1, 1⟩
        1 0).1 = Except.ok m)
    ∧ (∃ m, (completeTask (completeTask
        ⟨[⟨0, "buy milk", none, Status.pending, 1, 0, 0⟩], 1, 1⟩ 1 0).2 1 0).1 =
        Except.ok m)
    ∧ (∀ u ∈ (completeTask ⟨[⟨0, "buy milk", none, Status.pending, 1, 0, 0⟩],
        1, 1⟩ 1 0).2.tasks,
        u.id = 0 → u.owner_id = 1 → u.status = Status.completed)
    ∧ (∀ u ∈ (completeTask (completeTask
        ⟨[⟨0, "buy milk", none, Status.pending, 1, 0, 0⟩], 1, 1⟩ 1 0).2 1 0).2.tasks,
        u.id = 0 → u.owner_id = 1 → u.status = Status.completed) :=
  complete_task_idempotent ⟨[⟨0, "buy milk", none, Status.pending, 1, 0, 0⟩], 1, 1⟩
    1 ⟨0, "buy milk", none, Status.pending, 1, 0, 0⟩ (by decide) (by decide)

/-- C5: `list_tasks` always succeeds - its result is `ok` for every store,
the empty list included - and returns the caller's tasks in creation order
(oldest first, `created_at` non-decreasing) together with their count. -/
theorem list_tasks_success_ordered (ts : TaskStore) (owner : Nat)
    (filt : Option Status) :
    (∃ l, (listTasks ts owner filt).1 = Except.ok (l, l.length)
      ∧ l = ts.tasks.filter (fun t => t.owner_id == owner && statusMatches filt t))
    ∧ (WF ts →
      (ts.tasks.filter
        (fun t => t.owner_id == owner && statusMatches filt t)).Pairwise
          (fun a b => a.created_at ≤ b.created_at)) :=
  ⟨⟨_, rfl, rfl⟩,
   fun hwf => List.Pairwise.sublist (List.filter_sublist _) hwf.2⟩

/-- Witness for C5 at a concrete input: listing over an empty store
succeeds with the empty list (count 0) in order. -/
theorem list_tasks_success_ordered_witness :
    (∃ l, (listTasks ⟨[], 0, 0⟩ 1 none).1 = Except.ok (l, l.length)
      ∧ l = List.filter (fun t => t.owner_id == 1 && statusMatches none t) [])
    ∧ (List.filter (fun t => t.owner_id == 1 && statusMatches none t)
        ([] : List Task)).Pairwise (fun a b => a.created_at ≤ b.created_at) :=
  ⟨(list_tasks_success_ordered ⟨[], 0, 0⟩ 1 none).1,
   (list_tasks_success_ordered ⟨[], 0, 0⟩ 1 none).2 (by constructor <;> simp)⟩

/-- C7: `update_task(id, {title := X})` followed by `list_tasks()` shows the
task with title `X` and an `updated_at` strictly greater than before the
update; `updated_at` is refreshed by the mutation. -/
theorem update_task_round_trip (ts : TaskStore) (owner : Nat) (t : Task)
    (X : String) (hwf : WF ts) (ht : t ∈ ts.tasks) (how : t.owner_id = owner)
    (hX : titleOk X = true) :
    (∃ m, (updateTask ts owner t.id ⟨some X, none, none⟩).1 = Except.ok m)
    ∧ ∃ l, (listTasks (updateTask ts owner t.id ⟨some X, none, none⟩).2
          owner none).1 = Except.ok (l, l.length)
        ∧ ∃ u ∈ l, u.id = t.id ∧ u.title = X ∧ t.updated_at < u.updated_at := by
  have hp : patchValid ⟨some X, none, none⟩ = true := by
    simp [patchValid, hX]
  have hmt : ownedMatch owner t.id t = true :=
    (ownedMatch_iff owner t.id t).mpr ⟨rfl, how⟩
  have hsome : (ts.tasks.find? (ownedMatch owner t.id)).isSome := by
    rw [List.find?_isSome]
    exact ⟨t, ht, hmt⟩
  rcases Option.isSome_iff_exists.mp hsome with ⟨v, hv⟩
  have e1 : updateTask ts owner t.id ⟨some X, none, none⟩ =
      (Except.ok "Task updated successfully",
       ⟨ts.tasks.map (updateRow owner t.id ts.clock ⟨some X, none, none⟩),
        ts.nextId, ts.clock + 1⟩) := by
    unfold updateTask
    rw [if_pos hp, hv]
  have hrow : updateRow owner t.id ts.clock ⟨some X, none, none⟩ t =
      applyPatch ts.clock ⟨some X, none, none⟩ t := by
    unfold updateRow
    rw [if_pos hmt]
  have hu : applyPatch ts.clock ⟨some X, none, none⟩ t
      ∈ ts.tasks.map (updateRow owner t.id ts.clock ⟨some X, none, none⟩) := by
    rw [← hrow]
    exact List.mem_map_of_mem _ ht
  refine ⟨⟨_, by rw [e1]⟩, ?_⟩
  rw [e1]
  refine ⟨_, rfl, applyPatch ts.clock ⟨some X, none, none⟩ t, ?_, rfl, rfl, ?_⟩
  · rw [List.mem_filter]
    refine ⟨hu, ?_⟩
    have howner : (applyPatch ts.clock ⟨some X, none, none⟩ t).owner_id = owner := how
    simp [howner, statusMatches]
  · exact (hwf.1 t ht).2.2

/-- Witness for C7 at a concrete input: renaming task 0 to "buy eggs" shows
up in the listing with a strictly larger `updated_at`. -/
theorem update_task_round_trip_witness :
    (∃ m, (updateTask ⟨[⟨0, "buy milk", none, Status.pending, 1, 0, 0⟩], 1, 1⟩
        1 0 ⟨some "buy eggs", none, none⟩).1 = Except.ok m)
    ∧ ∃ l, (listTasks (updateTask
          ⟨[⟨0, "buy milk", none, Status.pending, 1, 0, 0⟩], 1, 1⟩
          1 0 ⟨some "buy eggs", none, none⟩).2 1 none).1 = Except.ok (l, l.length)
        ∧ ∃ u ∈ l, u.id = 0 ∧ u.title = "buy eggs" ∧ 0 < u.updated_at :=
  update_task_round_trip ⟨[⟨0, "buy milk", none, Status.pending, 1, 0, 0⟩], 1, 1⟩
    1 ⟨0, "buy milk", none, Status.pending, 1, 0, 0⟩ "buy eggs"
    (by constructor <;> simp) (by decide) (by decide) (by decide)

/-- Witness for C4 at concrete inputs: a one-word title succeeds with the
fresh id, and an empty title is a ValidationError. -/
theorem add_task_validation_witness :
    (addTask ⟨[], 0, 0⟩ 1 "buy milk" none).1 = Except.ok 0
    ∧ ((addTask ⟨[], 5, 0⟩ 1 "" none).1 = Except.error ToolError.validation ↔
        ("" : String).length = 0 ∨ 255 < ("" : String).length ∨
          ∃ s, (none : Option String) = some s ∧ 1000 < s.length) :=
  ⟨(add_task_validation ⟨[], 0, 0⟩ 1 "buy milk" none).2
      ⟨by decide, by decide, by intro s h; cases h⟩,
   (add_task_validation ⟨[], 5, 0⟩ 1 "" none).1⟩

theorem convMessages_appendMessage (cs : ConvStore) (cid : Nat) (r : Role)
    (x : String) (h : ∃ c ∈ cs.convs, c.id = cid) :
    convMessages (appendMessage cs cid r x) cid =
      convMessages cs cid ++ [⟨r, x⟩] := by
  unfold convMessages appendMessage
  rw [List.find?_map]
  have hcomp : ((fun c : Conversation => c.id == cid) ∘
      (fun c : Conversation => if c.id == cid then
        { c with messages := c.messages ++ [⟨r, x⟩] } else c)) =
      (fun c : Conversation => c.id == cid) := by
    funext c
    by_cases hc : (c.id == cid) = true
    · simp [Function.comp, hc]
    · simp [Function.comp, hc]
  rw [hcomp]
  rcases h with ⟨c, hc, hcid⟩
  have hs : (cs.convs.find? (fun c => c.id == cid)).isSome := by
    rw [List.find?_isSome]
    exact ⟨c, hc, by simp [hcid]⟩
  rcases Option.isSome_iff_exists.mp hs with ⟨d, hd⟩
  rw [hd]
  have hdeq : d.id = cid := by
    have h3 := List.find?_some hd
    simpa using h3
  simp [hdeq]

theorem exists_conv_appendMessage (cs : ConvStore) (cid : Nat) (r : Role)
    (x : String) (h : ∃ c ∈ cs.convs, c.id = cid) :
    ∃ c ∈ (appendMessage cs cid r x).convs, c.id = cid := by
  rcases h with ⟨c, hc, hcid⟩
  unfold appendMessage
  refine ⟨_, List.mem_map_of_mem
    (fun c : Conversation => if c.id == cid then
      { c with messages := c.messages ++ [⟨r, x⟩] } else c) hc, ?_⟩
  by_cases h2 : (c.id == cid) = true
  · simp [h2, hcid]
  · simp [h2, hcid]

theorem recentMessages_append_two (L : List Message) (a b : Message)
    (n : Nat) (hn : 2 ≤ n) :
    ∃ pre, recentMessages (L ++ [a, b]) n = pre ++ [a, b] := by
  refine ⟨L.drop ((L ++ [a, b]).length - n), ?_⟩
  unfold recentMessages
  have hk : (L ++ [a, b]).length - n - L.length = 0 := by
    simp only [List.length_append, List.length_cons, List.length_nil]
    omega
  rw [List.drop_append_eq_append_drop, hk]
  rfl

/-- C8: the message log is append-only and order-preserving: appending two
messages extends the log at its end, indices that existed before read the
same message afterwards, and `recent_messages` (window of at least 2)
returns the two new messages last, in append order. -/
theorem conversation_append_order (cs : ConvStore) (cid : Nat)
    (r1 r2 : Role) (x1 x2 : String) (n : Nat)
    (h : ∃ c ∈ cs.convs, c.id = cid) (hn : 2 ≤ n) :
    convMessages (appendMessage (appendMessage cs cid r1 x1) cid r2 x2) cid =
      convMessages cs cid ++ [⟨r1, x1⟩, ⟨r2, x2⟩]
    ∧ (∀ i, i < (convMessages cs cid).length →
        (convMessages (appendMessage (appendMessage cs cid r1 x1) cid r2 x2)
          cid)[i]? = (convMessages cs cid)[i]?)
    ∧ ∃ pre, recentMessages
        (convMessages (appendMessage (appendMessage cs cid r1 x1) cid r2 x2) cid)
        n = pre ++ [⟨r1, x1⟩, ⟨r2, x2⟩] := by
  have h1 := convMessages_appendMessage cs cid r1 x1 h
  have h2 := convMessages_appendMessage (appendMessage cs cid r1 x1) cid r2 x2
    (exists_conv_appendMessage cs cid r1 x1 h)
  have hall : convMessages (appendMessage (appendMessage cs cid r1 x1) cid r2 x2)
      cid = convMessages cs cid ++ [⟨r1, x1⟩, ⟨r2, x2⟩] := by
    rw [h2, h1, List.append_assoc]
    rfl
  refine ⟨hall, ?_, ?_⟩
  · intro i hi
    rw [hall]
    exact List.getElem?_append_left hi
  · rw [hall]
    exact recentMessages_append_two _ _ _ n hn

/-- Witness for C8 at a concrete input: two messages appended to
conversation 0 come back from `recent_messages` in order. -/
theorem conversation_append_order_witness :
    convMessages (appendMessage (appendMessage ⟨[⟨0, 1, []⟩], 1⟩ 0 Role.user "hi")
        0 Role.assistant "hello") 0 =
      convMessages ⟨[⟨0, 1, []⟩], 1⟩ 0 ++
        [⟨Role.user, "hi"⟩, ⟨Role.assistant, "hello"⟩]
    ∧ (∀ i, i < (convMessages ⟨[⟨0, 1, []⟩], 1⟩ 0).length →
        (convMessages (appendMessage (appendMessage ⟨[⟨0, 1, []⟩], 1⟩ 0
          Role.user "hi") 0 Role.assistant "hello") 0)[i]? =
        (convMessages ⟨[⟨0, 1, []⟩], 1⟩ 0)[i]?)
    ∧ ∃ pre, recentMessages
        (convMessages (appendMessage (appendMessage ⟨[⟨0, 1, []⟩], 1⟩ 0
          Role.user "hi") 0 Role.assistant "hello") 0) 10 =
        pre ++ [⟨Role.user, "hi"⟩, ⟨Role.assistant, "hello"⟩] :=
  conversation_append_order ⟨[⟨0, 1, []⟩], 1⟩ 0 Role.user Role.assistant
    "hi" "hello" 10 ⟨⟨0, 1, []⟩, by simp, rfl⟩ (by decide)

/-- C2: only StoreError crosses the chat entry point as a hard failure;
whenever the store is up, every request - whatever the collaborator or the
tools answer, so every absorbed ValidationError, NotFoundError and
CollaboratorError - produces an `ok` conversational outcome. -/
theorem chat_store_error_only (storeUp : Bool) (owner : Nat)
    (cid? : Option Nat) (text : String) (collab : CollabOut)
    (cs : ConvStore) (ts : TaskStore) :
    (∀ e, dispatch storeUp owner cid? text collab cs ts = Except.error e →
      e = ToolError.store ∧ storeUp = false)
    ∧ (storeUp = true →
      ∃ out, dispatch storeUp owner cid? text collab cs ts = Except.ok out) := by
  cases storeUp with
  | false =>
    constructor
    · intro e he
      have h0 : dispatch false owner cid? text collab cs ts =
          Except.error ToolError.store := rfl
      rw [h0] at he
      injection he with h
      exact ⟨h.symm, rfl⟩
    · intro hcon
      cases hcon
  | true =>
    constructor
    · intro e he
      rcases (⟨_, rfl⟩ : ∃ out, dispatch true owner cid? text collab cs ts =
          Except.ok out) with ⟨out, hout⟩
      rw [hout] at he
      exact Except.noConfusion he
    · intro _
      exact ⟨_, rfl⟩

/-- Witness for C2 at concrete inputs: with the store up the entry point
answers `ok` even when the collaborator failed, and with the store down it
fails. -/
theorem chat_store_error_only_witness :
    ∃ out, dispatch true 1 none "hello" CollabOut.failed ⟨[], 0⟩ ⟨[], 0, 0⟩ =
      Except.ok out :=
  (chat_store_error_only true 1 none "hello" CollabOut.failed ⟨[], 0⟩
    ⟨[], 0, 0⟩).2 rfl

theorem resolveTarget_ambiguous (mk : Nat → ToolCall) (ref : String)
    (tasks : List Task)
    (h : 2 ≤ (tasks.filter (fun t => matchesTitle t.title ref)).length) :
    resolveTarget mk ref tasks = Resolution.clarify clarifyTarget := by
  unfold resolveTarget
  cases hl : tasks.filter (fun t => matchesTitle t.title ref) with
  | nil => rfl
  | cons a tl =>
    cases tl with
    | nil =>
      rw [hl] at h
      simp at h
    | cons b l => rfl

/-- C3: an utterance whose free-text task reference matches more than one
of the caller's current task titles (case-insensitive substring) makes the
Intent Resolver return a clarification instead of a tool call, and the
dispatched request leaves the Task Store unchanged with the clarification
as the response. -/
theorem ambiguous_reference_clarification (owner : Nat) (cid? : Option Nat)
    (text : String) (collab : CollabOut) (cs : ConvStore) (ts : TaskStore)
    (hintent : (((splitWords text).filterMap lexiconIntent)).dedup =
        [IntentKind.completeI] ∨
      (((splitWords text).filterMap lexiconIntent)).dedup =
        [IntentKind.deleteI])
    (hamb : 2 ≤ ((ts.tasks.filter (fun t => t.owner_id == owner)).filter
        (fun t => matchesTitle t.title (extractRef text))).length) :
    keywordResolve text (ts.tasks.filter (fun t => t.owner_id == owner)) =
      some (Resolution.clarify clarifyTarget)
    ∧ ∃ out, dispatch true owner cid? text collab cs ts = Except.ok out
        ∧ out.response = clarifyTarget
        ∧ out.taskStore = ts := by
  have hkw : keywordResolve text
      (ts.tasks.filter (fun t => t.owner_id == owner)) =
      some (Resolution.clarify clarifyTarget) := by
    unfold keywordResolve
    rcases hintent with hI | hI
    · rw [hI]
      unfold buildCall
      rw [resolveTarget_ambiguous ToolCall.complete (extractRef text) _ hamb]
    · rw [hI]
      unfold buildCall
      rw [resolveTarget_ambiguous ToolCall.del (extractRef text) _ hamb]
  refine ⟨hkw, ?_⟩
  have hd : dispatch true owner cid? text collab cs ts =
      Except.ok ⟨clarifyTarget, (getOrCreateConv cs owner cid?).1,
        appendMessage (appendMessage (getOrCreateConv cs owner cid?).2
          (getOrCreateConv cs owner cid?).1 Role.user text)
          (getOrCreateConv cs owner cid?).1 Role.assistant clarifyTarget,
        ts⟩ := by
    simp only [dispatch]
    rw [hkw]
    rfl
  exact ⟨_, hd, rfl, rfl⟩

/-- Witness for C3 at the spec's scenario 3: "mark buy milk as done" with
tasks "buy milk" and "buy milk and eggs" yields a clarification and no
state change. -/
theorem ambiguous_reference_clarification_witness :
    keywordResolve "mark buy milk as done"
      ((⟨[⟨0, "buy milk", none, Status.pending, 1, 0, 0⟩,
          ⟨1, "buy milk and eggs", none, Status.pending, 1, 1, 1⟩], 2, 2⟩ :
        TaskStore).tasks.filter (fun t => t.owner_id == 1)) =
      some (Resolution.clarify clarifyTarget)
    ∧ ∃ out, dispatch true 1 none "mark buy milk as done" CollabOut.failed
        ⟨[], 0⟩ ⟨[⟨0, "buy milk", none, Status.pending, 1, 0, 0⟩,
          ⟨1, "buy milk and eggs", none, Status.pending, 1, 1, 1⟩], 2, 2⟩ =
        Except.ok out
        ∧ out.response = clarifyTarget
        ∧ out.taskStore = ⟨[⟨0, "buy milk", none, Status.pending, 1, 0, 0⟩,
            ⟨1, "buy milk and eggs", none, Status.pending, 1, 1, 1⟩], 2, 2⟩ :=
  ambiguous_reference_clarification 1 none "mark buy milk as done"
    CollabOut.failed ⟨[], 0⟩
    ⟨[⟨0, "buy milk", none, Status.pending, 1, 0, 0⟩,
      ⟨1, "buy milk and eggs", none, Status.pending, 1, 1, 1⟩], 2, 2⟩
    (by decide) (by decide)

end Todo

